import Mathlib

/-!
Shallow embedding of `withRateLimit` from `src/index.ts` of
woywro/next-api-rate-limit: a Next.js API rate-limiting wrapper combining a
local LRU cache (typescript-lru-cache) with a remote sliding-window counter
(@upstash/ratelimit over Upstash Redis or Vercel KV).

Timestamps are modelled as `Int` milliseconds (`Date.now()`), counters as
`Int` (JS numbers; the code computes `remaining - 1`, which can go negative).
The remote service and the wrapped handler are opaque collaborators, so each
request carries an oracle describing how they would behave if invoked; the
engine consults the oracle only on the paths where the source actually calls
them, and the `remoteCalled` / `handlerInvoked` flags of the result record
which calls were made.
-/

namespace RateLimit

/-- The value the caller-supplied `getKey` extractor call evaluates to.
The source does `const key = getKey(req)` without `await`, so an
asynchronous extractor yields a `Promise` object here, not a string;
`promise s` is a pending promise that would resolve to the string `s`. -/
inductive KeyVal where
  | str (s : String)
  | promise (s : String)
  deriving DecidableEq, Repr

/-- JS truthiness of `!key` at line 67: the empty string is falsy; a Promise
object is always truthy, whatever it resolves to. -/
def jsFalsyKey : KeyVal → Bool
  | .str s => s = ""
  | .promise _ => false

/-- `RateLimitState` of the source: `{ remaining: number; reset: number }`
with `reset` an absolute epoch-milliseconds timestamp. -/
structure RateLimitState where
  remaining : Int
  reset : Int
  deriving DecidableEq, Repr

/-- One entry of the LRU cache: key, stored state and the absolute time at
which the entry's per-entry TTL (`entryExpirationTimeInMS`) elapses. -/
structure CacheEntry where
  key : KeyVal
  state : RateLimitState
  expiresAt : Int
  deriving DecidableEq, Repr

/-- The `typescript-lru-cache` instance, modelled as a recency list:
most-recently-used entry first, least-recently-used last. -/
abbrev Cache := List CacheEntry

/-- `maxSize: 500` passed to the LRUCache constructor. -/
def maxSize : Nat := 500

/-- `cache.get(key)` at time `now`: returns the stored state if present and
its TTL has not elapsed, promoting the entry to most-recently-used; an
expired entry is treated as absent (lazily evicted: it is never returned and
is eventually displaced). Returns the possibly reordered cache alongside. -/
def cacheGet (c : Cache) (key : KeyVal) (now : Int) :
    Option RateLimitState × Cache :=
  match c.find? (fun e => e.key = key) with
  | none => (none, c)
  | some e =>
    if now < e.expiresAt then
      (some e.state, e :: c.filter (fun e2 => !(e2.key = key : Bool)))
    else
      (none, c)

/-- `cache.set(key, state, { entryExpirationTimeInMS: ttl })` at time `now`:
replaces any entry for `key`, inserts at most-recently-used position with
expiry `now + ttl`, and evicts least-recently-used entries beyond capacity. -/
def cacheSet (c : Cache) (key : KeyVal) (st : RateLimitState)
    (now ttl : Int) : Cache :=
  (CacheEntry.mk key st (now + ttl) ::
    c.filter (fun e2 => !(e2.key = key : Bool))).take maxSize

/-- `provider: z.enum(['upstash', 'vercelKV'])`. -/
inductive Provider where
  | upstash
  | vercelKV
  deriving DecidableEq, Repr

/-- The parsed `RateLimitOptions` (after zod fills the defaults):
`timeframe` (seconds) and `requestsLimit` positive, `disableLRU` false by
default, `errorMessage` optional. -/
structure RateLimitOptions where
  timeframe : Nat
  requestsLimit : Nat
  disableLRU : Bool
  provider : Provider
  errorMessage : Option String
  deriving DecidableEq, Repr

/-- The zod defaults: timeframe 60, requestsLimit 5, LRU enabled, upstash. -/
def defaultOptions : RateLimitOptions :=
  { timeframe := 60, requestsLimit := 5, disableLRU := false,
    provider := .upstash, errorMessage := none }

/-- Line 45: the default 429 body text (JS computes `timeframe / 60`
exactly; the model uses Nat division, which agrees whenever 60 divides
`timeframe` — no claim inspects the quotient otherwise). -/
def defaultErrorMessage (o : RateLimitOptions) : String :=
  "Too Many Requests. The limit is " ++ toString o.requestsLimit ++
    " requests per " ++ toString (o.timeframe / 60) ++ " minutes."

/-- Line 46: `errorMessage || defaultErrorMessage` — JS `||` falls through
on the empty string as well as on an absent option. -/
def getErrorMessage (o : RateLimitOptions) : String :=
  match o.errorMessage with
  | some s => if s = "" then defaultErrorMessage o else s
  | none => defaultErrorMessage o

/-- Environment variables read at construction (lines 29-38). The Vercel KV
credentials are listed so their absence is expressible; the source never
inspects them. -/
structure Env where
  upstashUrl : Option String
  upstashToken : Option String
  kvRestApiUrl : Option String
  kvRestApiToken : Option String
  deriving DecidableEq, Repr

/-- JS falsiness of an environment variable: absent or the empty string. -/
def jsFalsyEnv : Option String → Bool
  | none => true
  | some s => s = ""

/-- The redis client the wrapper constructs. -/
inductive Client where
  | upstashRedis (url token : String)
  | vercelKv
  deriving DecidableEq, Repr

/-- Lines 29-38: provider `upstash` throws
`Missing Upstash environment variables` when `UPSTASH_URL` or
`UPSTASH_TOKEN` is falsy; provider `vercelKV` takes `kv` from `@vercel/kv`
with no credential check in this code. -/
def constructRedisClient (provider : Provider) (env : Env) :
    Except String Client :=
  match provider with
  | .upstash =>
    match env.upstashUrl, env.upstashToken with
    | some url, some token =>
      if url = "" ∨ token = "" then
        .error "Missing Upstash environment variables"
      else
        .ok (.upstashRedis url token)
    | _, _ => .error "Missing Upstash environment variables"
  | .vercelKV => .ok .vercelKv

/-- How the wrapped handler would behave if invoked on this request.
`throwsSync` throws during the call itself (a synchronous handler);
`rejectsAsync` returns a promise that later rejects (an `async` handler
whose body throws). The distinction matters because the source returns the
handler's result without `await`. -/
inductive HandlerBehavior where
  | normal
  | throwsSync
  | rejectsAsync
  deriving DecidableEq, Repr

/-- What `await ratelimit.limit(key)` would produce for this request:
a result object `{success, remaining, reset}` or a thrown transport/service
failure (`throws` also covers a rejecting `pending` promise, awaited on
line 81 before any cache write or handler call). -/
inductive RemoteResult where
  | ok (success : Bool) (remaining reset : Int)
  | throws
  deriving DecidableEq, Repr

/-- The HTTP-visible responses the wrapper itself produces, plus
passthrough to the handler's own response. -/
inductive HttpResponse where
  | badRequest (msg : String)
  | tooMany (msg : String)
  | internalError (msg : String)
  | handlerResponse
  deriving DecidableEq, Repr

/-- Outcome of one wrapped request: an HTTP response, or a rejection of the
wrapper's own promise propagating to its caller. -/
inductive Outcome where
  | respond (r : HttpResponse)
  | raised
  deriving DecidableEq, Repr

/-- Observable result of one request besides the cache: the outcome and
whether the remote store and the wrapped handler were actually called. -/
structure StepRes where
  outcome : Outcome
  remoteCalled : Bool
  handlerInvoked : Bool
  deriving DecidableEq, Repr

/-- One inbound request: the value the key extractor evaluated to, the
clock at the cache lookup (line 71) and at the cache write (line 60,
inside `updateCacheAndProceed`), and the oracles for the remote store and
the handler. -/
structure Request where
  key : KeyVal
  now1 : Int
  now2 : Int
  remote : RemoteResult
  handler : HandlerBehavior
  deriving DecidableEq, Repr

/-- Line 73 / line 62, local-hit path: the handler is called outside the
`try`, so any failure — synchronous throw or returned rejecting promise —
propagates to the wrapper's caller. -/
def handlerOutcomeOutsideTry : HandlerBehavior → Outcome
  | .normal => .respond .handlerResponse
  | .throwsSync => .raised
  | .rejectsAsync => .raised

/-- Lines 83-84, remote-allow path: the handler is called inside the `try`
but its promise is returned without `await`, so only a synchronous throw is
caught (becoming the 500 of line 86); a returned rejecting promise resolves
the async wrapper with that rejection after the `try` has been exited, and
propagates. -/
def handlerOutcomeInsideTry : HandlerBehavior → Outcome
  | .normal => .respond .handlerResponse
  | .throwsSync => .respond (.internalError "Internal Server Error")
  | .rejectsAsync => .raised

/-- Lines 48-51 `handleLimitExceeded`: the 429 response body (the
`console.error` log has no modelled effect). -/
def handleLimitExceeded (o : RateLimitOptions) : HttpResponse :=
  .tooMany (getErrorMessage o)

/-- Lines 53-63 `updateCacheAndProceed`, cache part: `ttl = reset - now`;
write the state with that per-entry TTL only when `ttl > 0`, else skip.
(The handler call it then performs is accounted at the call sites, which
differ in their position relative to the `try`.) -/
def updateCacheAndProceed (c : Cache) (remaining reset : Int)
    (key : KeyVal) (now : Int) : Cache :=
  let ttl := reset - now
  if ttl > 0 then cacheSet c key (RateLimitState.mk remaining reset) now ttl
  else c

/-- Lines 79-87: the `try` block — remote consume, then reject or
allow-and-cache. Reached only on cache miss/expiry or with the LRU
disabled. -/
def remotePath (o : RateLimitOptions) (c : Cache) (r : Request) :
    Cache × StepRes :=
  match r.remote with
  | .throws =>
    (c, StepRes.mk (.respond (.internalError "Internal Server Error"))
        true false)
  | .ok success remaining reset =>
    if !success then
      (c, StepRes.mk (.respond (handleLimitExceeded o)) true false)
    else if !o.disableLRU then
      (updateCacheAndProceed c (remaining - 1) reset r.key r.now2,
       StepRes.mk (handlerOutcomeInsideTry r.handler) true true)
    else
      (c, StepRes.mk (handlerOutcomeInsideTry r.handler) true true)

/-- Lines 65-88: one wrapped request. Empty key → 400; else, with the LRU
enabled, consult the cache and on a hit whose `reset` is in the future
either allow locally (re-caching `remaining - 1`) or reject locally;
otherwise fall to the remote path. -/
def step (o : RateLimitOptions) (c : Cache) (r : Request) :
    Cache × StepRes :=
  if jsFalsyKey r.key then
    (c, StepRes.mk (.respond (.badRequest "Unable to determine rate limit key"))
        false false)
  else
    match (if o.disableLRU then (none, c) else cacheGet c r.key r.now1) with
    | (some st, c1) =>
      if st.reset > r.now1 then
        if st.remaining > 0 then
          (updateCacheAndProceed c1 (st.remaining - 1) st.reset r.key r.now2,
           StepRes.mk (handlerOutcomeOutsideTry r.handler) false true)
        else
          (c1, StepRes.mk (.respond (handleLimitExceeded o)) false false)
      else
        remotePath o c1 r
    | (none, c1) => remotePath o c1 r

/-- A run of the wrapper: process the requests in order, threading the
cache, collecting each request's observable result. -/
def runSteps (o : RateLimitOptions) (c : Cache) :
    List Request → Cache × List StepRes
  | [] => (c, [])
  | r :: rs =>
    let out := step o c r
    let rest := runSteps o out.1 rs
    (rest.1, out.2 :: rest.2)

/-- The spec's §3 invariant on the cache: every stored state has a
non-negative `remaining`. -/
def cacheNonneg (c : Cache) : Prop :=
  ∀ e ∈ c, 0 ≤ e.state.remaining

/-- The remote service reports at least one unit left whenever it allows a
request. (Upstash can in fact answer `success = true, remaining = 0` on the
last admitted request of a window, so this is a genuine restriction.) -/
def remoteAllowPositive (r : Request) : Prop :=
  ∀ rem reset : Int, r.remote = RemoteResult.ok true rem reset → 1 ≤ rem

/-- The options with a given request ceiling and the other defaults. -/
def optsWithLimit (l : Nat) : RateLimitOptions :=
  { defaultOptions with requestsLimit := l }

/-- The key used by the exhaustion trace of C1. -/
def c1key : KeyVal := .str "k"

/-- First request of the exhaustion trace: cache miss, the remote admits it
reporting `rem` units left in a window closing at `reset`. -/
def c1remoteReq (rem reset : Int) : Request :=
  Request.mk c1key 0 0 (.ok true rem reset) .normal

/-- Follow-up request of the exhaustion trace, at time 0 for the same key;
its remote oracle `throws`, so any remote contact would surface as a 500
rather than being silently absorbed. -/
def c1localReq : Request :=
  Request.mk c1key 0 0 .throws .normal

end RateLimit

namespace RateLimit

/-! ### Helper lemmas -/

theorem cacheGet_eq_none_of_find?_none (c : Cache) (key : KeyVal) (now : Int)
    (h : c.find? (fun e => e.key = key) = none) :
    cacheGet c key now = (none, c) := by
  unfold cacheGet
  rw [h]

theorem cacheGet_find_some (c : Cache) (key : KeyVal) (now : Int)
    (e : CacheEntry) (hf : c.find? (fun e2 => e2.key = key) = some e) :
    cacheGet c key now =
      if now < e.expiresAt then
        (some e.state, e :: c.filter (fun e2 => !(e2.key = key : Bool)))
      else (none, c) := by
  unfold cacheGet
  rw [hf]

theorem mem_cacheSet (c : Cache) (key : KeyVal) (st : RateLimitState)
    (now ttl : Int) (e : CacheEntry) (he : e ∈ cacheSet c key st now ttl) :
    e = CacheEntry.mk key st (now + ttl) ∨ e ∈ c := by
  unfold cacheSet at he
  have h2 := List.take_subset _ _ he
  rcases List.mem_cons.mp h2 with h3 | h3
  · exact Or.inl h3
  · exact Or.inr (List.mem_of_mem_filter h3)

theorem mem_updateCacheAndProceed (c : Cache) (rem reset : Int)
    (key : KeyVal) (now : Int) (e : CacheEntry)
    (he : e ∈ updateCacheAndProceed c rem reset key now) :
    e.state = RateLimitState.mk rem reset ∨ e ∈ c := by
  change e ∈ (if reset - now > 0 then
    cacheSet c key (RateLimitState.mk rem reset) now (reset - now) else c) at he
  split at he
  · rcases mem_cacheSet _ _ _ _ _ _ he with h | h
    · exact Or.inl (by rw [h])
    · exact Or.inr h
  · exact Or.inr he

theorem mem_cacheGet_snd (c : Cache) (key : KeyVal) (now : Int)
    (e : CacheEntry) (he : e ∈ (cacheGet c key now).2) : e ∈ c := by
  cases hf : c.find? (fun e2 => e2.key = key) with
  | none =>
    rw [cacheGet_eq_none_of_find?_none c key now hf] at he
    exact he
  | some e2 =>
    rw [cacheGet_find_some c key now e2 hf] at he
    by_cases hn : now < e2.expiresAt
    · rw [if_pos hn] at he
      rcases List.mem_cons.mp he with h | h
      · exact h ▸ List.mem_of_find?_eq_some hf
      · exact List.mem_of_mem_filter h
    · rw [if_neg hn] at he
      exact he

theorem cacheGet_some_mem (c : Cache) (key : KeyVal) (now : Int)
    (st : RateLimitState) (c1 : Cache)
    (h : cacheGet c key now = (some st, c1)) :
    (∃ e ∈ c, e.state = st) ∧ ∀ e ∈ c1, e ∈ c := by
  refine ⟨?_, fun e he => mem_cacheGet_snd c key now e (by rw [h]; exact he)⟩
  cases hf : c.find? (fun e2 => e2.key = key) with
  | none =>
    rw [cacheGet_eq_none_of_find?_none c key now hf] at h
    simp at h
  | some e2 =>
    rw [cacheGet_find_some c key now e2 hf] at h
    by_cases hn : now < e2.expiresAt
    · rw [if_pos hn] at h
      have h1 : some e2.state = some st := congrArg Prod.fst h
      exact ⟨e2, List.mem_of_find?_eq_some hf, Option.some.inj h1⟩
    · rw [if_neg hn] at h
      simp at h

theorem remotePath_preserves_cacheNonneg (o : RateLimitOptions) (c : Cache)
    (r : Request) (hc : cacheNonneg c) (hr : remoteAllowPositive r) :
    cacheNonneg (remotePath o c r).1 := by
  unfold remotePath
  cases hrem : r.remote with
  | throws => exact hc
  | ok success rem reset =>
    cases success with
    | false => simpa using hc
    | true =>
      have hpos : 1 ≤ rem := hr rem reset hrem
      by_cases hd : o.disableLRU
      · simpa [hd] using hc
      · simp only [hd, Bool.not_true, Bool.not_false, if_true, if_false,
          Bool.false_eq_true, ite_true, ite_false]
        unfold cacheNonneg
        intro e he
        rcases mem_updateCacheAndProceed _ _ _ _ _ _ he with h | h
        · rw [h]
          show (0 : Int) ≤ rem - 1
          omega
        · exact hc e h

theorem step_preserves_cacheNonneg (o : RateLimitOptions) (c : Cache)
    (r : Request) (hc : cacheNonneg c) (hr : remoteAllowPositive r) :
    cacheNonneg (step o c r).1 := by
  have hlem : ∀ (p : Option RateLimitState × Cache),
      (if o.disableLRU then (none, c) else cacheGet c r.key r.now1) = p →
      cacheNonneg p.2 := by
    intro p hp
    by_cases hd : o.disableLRU
    · rw [if_pos hd] at hp
      rw [← hp]
      exact hc
    · rw [if_neg hd] at hp
      intro e he
      exact hc e (mem_cacheGet_snd c r.key r.now1 e (by rw [hp]; exact he))
  unfold step
  split
  · exact hc
  · split
    · rename_i st c1 hlk
      have hc1 : cacheNonneg c1 := hlem (some st, c1) hlk
      split
      · split
        · rename_i hreset hpos
          show cacheNonneg
            (updateCacheAndProceed c1 (st.remaining - 1) st.reset r.key r.now2)
          unfold cacheNonneg
          intro e he
          rcases mem_updateCacheAndProceed _ _ _ _ _ _ he with h | h
          · rw [h]
            show (0 : Int) ≤ st.remaining - 1
            omega
          · exact hc1 e h
        · exact hc1
      · exact remotePath_preserves_cacheNonneg o c1 r hc1 hr
    · rename_i c1 hlk
      have hc1 : cacheNonneg c1 := hlem (none, c1) hlk
      exact remotePath_preserves_cacheNonneg o c1 r hc1 hr

theorem updateCacheAndProceed_eq (c : Cache) (rem reset : Int)
    (key : KeyVal) (now : Int) :
    updateCacheAndProceed c rem reset key now =
      if reset - now > 0 then
        cacheSet c key (RateLimitState.mk rem reset) now (reset - now)
      else c := rfl

theorem cacheSet_head? (c : Cache) (key : KeyVal) (st : RateLimitState)
    (now ttl : Int) :
    (cacheSet c key st now ttl).head? =
      some (CacheEntry.mk key st (now + ttl)) := rfl

theorem runSteps_nil (o : RateLimitOptions) (c : Cache) :
    runSteps o c [] = (c, []) := rfl

theorem runSteps_cons (o : RateLimitOptions) (c : Cache) (r : Request)
    (rs : List Request) :
    runSteps o c (r :: rs) =
      ((runSteps o (step o c r).1 rs).1,
        (step o c r).2 :: (runSteps o (step o c r).1 rs).2) := rfl

theorem c1_local_step_pos (o : RateLimitOptions) (ho : o.disableLRU = false)
    (m R : Int) (hR : 0 < R) (hm : 0 < m) :
    step o [CacheEntry.mk c1key (RateLimitState.mk m R) R] c1localReq =
      ([CacheEntry.mk c1key (RateLimitState.mk (m - 1) R) R],
        StepRes.mk (.respond .handlerResponse) false true) := by
  have hget : cacheGet [CacheEntry.mk c1key (RateLimitState.mk m R) R]
      c1key 0 =
      (some (RateLimitState.mk m R),
        [CacheEntry.mk c1key (RateLimitState.mk m R) R]) := by
    rw [cacheGet_find_some [CacheEntry.mk c1key (RateLimitState.mk m R) R]
      c1key 0 (CacheEntry.mk c1key (RateLimitState.mk m R) R) rfl]
    simp [hR]
  have hkf : jsFalsyKey c1key = false := rfl
  unfold step
  simp [c1localReq, hkf, ho, hget, hR, hm,
    updateCacheAndProceed_eq, cacheSet, maxSize, handlerOutcomeOutsideTry]

theorem c1_local_step_zero (o : RateLimitOptions) (ho : o.disableLRU = false)
    (R : Int) (hR : 0 < R) :
    step o [CacheEntry.mk c1key (RateLimitState.mk 0 R) R] c1localReq =
      ([CacheEntry.mk c1key (RateLimitState.mk 0 R) R],
        StepRes.mk (.respond (.tooMany (getErrorMessage o))) false false) := by
  have hget : cacheGet [CacheEntry.mk c1key (RateLimitState.mk 0 R) R]
      c1key 0 =
      (some (RateLimitState.mk 0 R),
        [CacheEntry.mk c1key (RateLimitState.mk 0 R) R]) := by
    rw [cacheGet_find_some [CacheEntry.mk c1key (RateLimitState.mk 0 R) R]
      c1key 0 (CacheEntry.mk c1key (RateLimitState.mk 0 R) R) rfl]
    simp [hR]
  have hkf : jsFalsyKey c1key = false := rfl
  unfold step handleLimitExceeded
  simp [c1localReq, hkf, ho, hget, hR]

theorem c1_run_local (o : RateLimitOptions) (ho : o.disableLRU = false)
    (m : Nat) (R : Int) (hR : 0 < R) :
    runSteps o [CacheEntry.mk c1key (RateLimitState.mk (m : Int) R) R]
      (List.replicate (m + 1) c1localReq) =
      ([CacheEntry.mk c1key (RateLimitState.mk 0 R) R],
        List.replicate m (StepRes.mk (.respond .handlerResponse) false true)
          ++ [StepRes.mk (.respond (.tooMany (getErrorMessage o)))
                false false]) := by
  induction m with
  | zero =>
    rw [List.replicate_one, runSteps_cons, runSteps_nil]
    simp only [Nat.cast_zero]
    rw [c1_local_step_zero o ho R hR]
    simp
  | succ m ih =>
    rw [List.replicate_succ, runSteps_cons]
    have hstep := c1_local_step_pos o ho ((m : Int) + 1) R hR (by positivity)
    have hcast : (((m + 1 : Nat)) : Int) = (m : Int) + 1 := by push_cast; ring
    rw [hcast, hstep]
    simp only [add_sub_cancel_right]
    rw [ih]
    simp [List.replicate_succ]

/-! ### Claim theorems -/

/-- C1: (first part) for every request whose key has a cache entry returned
by the cache with `reset` in the future and `remaining = 0` (cache
enabled), the engine returns Reject — 429 with the configured or default
error message — without a remote call and without invoking the handler.
(Second part) after the first request of a window is admitted remotely with
`n` units reported (`n` allowed requests in total, any `1 ≤ n ≤
requestsLimit`), the `(n+1)`-th request for that key within the window is
rejected without a remote call: the run's outputs are one remote-backed
allow, `n - 1` local allows, then a local reject, every request after the
first making no remote call. -/
theorem c1_zero_hit_reject_and_window_exhaustion :
    (∀ (o : RateLimitOptions) (c : Cache) (r : Request)
        (st : RateLimitState) (c1 : Cache),
      jsFalsyKey r.key = false → o.disableLRU = false →
      cacheGet c r.key r.now1 = (some st, c1) →
      st.reset > r.now1 → st.remaining = 0 →
      step o c r =
        (c1, StepRes.mk (.respond (.tooMany (getErrorMessage o)))
          false false)) ∧
    (∀ (l n : Nat) (R : Int), 1 ≤ n → n ≤ l → 0 < R →
      (runSteps (optsWithLimit l) []
          (c1remoteReq (n : Int) R :: List.replicate n c1localReq)).2 =
        StepRes.mk (.respond .handlerResponse) true true ::
          List.replicate (n - 1)
            (StepRes.mk (.respond .handlerResponse) false true) ++
          [StepRes.mk
            (.respond (.tooMany (getErrorMessage (optsWithLimit l))))
            false false]) := by
  constructor
  · intro o c r st c1 hk hd hg hreset hrem
    unfold step handleLimitExceeded
    simp [hk, hd, hg, hreset, hrem]
  · intro l n R hn hnl hR
    have ho : (optsWithLimit l).disableLRU = false := rfl
    have hkf : jsFalsyKey c1key = false := rfl
    have hfirst : step (optsWithLimit l) [] (c1remoteReq (n : Int) R) =
        ([CacheEntry.mk c1key (RateLimitState.mk ((n : Int) - 1) R) R],
          StepRes.mk (.respond .handlerResponse) true true) := by
      have hget : cacheGet [] c1key 0 = (none, []) := rfl
      unfold step remotePath
      simp [c1remoteReq, hkf, ho, hget, hR, updateCacheAndProceed_eq,
        cacheSet, maxSize, handlerOutcomeInsideTry]
    obtain ⟨k, rfl⟩ : ∃ k, n = k + 1 := ⟨n - 1, by omega⟩
    rw [runSteps_cons, hfirst]
    have hcast : (((k + 1 : Nat) : Int) - 1) = ((k : Nat) : Int) := by
      push_cast
      ring
    rw [hcast, c1_run_local (optsWithLimit l) ho k R hR]
    simp

/-- Witness for C1 at a concrete run: limit 5, three requests, the remote
reporting 2 units on the first; two allows then a local reject. -/
theorem c1_zero_hit_reject_and_window_exhaustion_witness :
    (runSteps (optsWithLimit 5) []
        (c1remoteReq ((2 : Nat) : Int) 60000 ::
          List.replicate 2 c1localReq)).2 =
      StepRes.mk (.respond .handlerResponse) true true ::
        List.replicate 1 (StepRes.mk (.respond .handlerResponse) false true)
        ++ [StepRes.mk
              (.respond (.tooMany (getErrorMessage (optsWithLimit 5))))
              false false] :=
  c1_zero_hit_reject_and_window_exhaustion.2 5 2 60000
    (by decide) (by decide) (by decide)

/-- C2: (general part) when the remote consume call succeeds with
`success = true` and the cache is enabled, the engine stores
`remaining - 1` — the remote-returned count decremented by exactly one —
as the most-recent cache entry, with the returned `reset` as both state
field and entry expiry. (Scenario) with `requestsLimit = 2`: request 1 goes
remote, `{success: true, remaining: 2}` is cached as `{remaining: 1}` and
allowed; request 2 is a local hit re-cached as `{remaining: 0}` and
allowed; request 3 is a local hit at `remaining = 0`, rejected with no
remote call (its remote oracle `throws`, so any contact would show as a
500). -/
theorem c2_decrement_before_cache_and_trace :
    (∀ (o : RateLimitOptions) (c : Cache) (r : Request) (rem reset : Int),
      jsFalsyKey r.key = false → o.disableLRU = false →
      c.find? (fun e => e.key = r.key) = none →
      r.remote = RemoteResult.ok true rem reset → reset - r.now2 > 0 →
      (step o c r).1.head? =
        some (CacheEntry.mk r.key (RateLimitState.mk (rem - 1) reset)
          reset)) ∧
    (runSteps (optsWithLimit 2) []
        [Request.mk (.str "k") 0 0 (.ok true 2 60000) .normal]).1 =
      [CacheEntry.mk (.str "k") (RateLimitState.mk 1 60000) 60000] ∧
    (runSteps (optsWithLimit 2) []
        [Request.mk (.str "k") 0 0 (.ok true 2 60000) .normal,
         Request.mk (.str "k") 1000 1000 .throws .normal]).1 =
      [CacheEntry.mk (.str "k") (RateLimitState.mk 0 60000) 60000] ∧
    (runSteps (optsWithLimit 2) []
        [Request.mk (.str "k") 0 0 (.ok true 2 60000) .normal,
         Request.mk (.str "k") 1000 1000 .throws .normal,
         Request.mk (.str "k") 2000 2000 .throws .normal]).2 =
      [StepRes.mk (.respond .handlerResponse) true true,
       StepRes.mk (.respond .handlerResponse) false true,
       StepRes.mk (.respond (.tooMany (getErrorMessage (optsWithLimit 2))))
         false false] := by
  refine ⟨?_, rfl, rfl, rfl⟩
  intro o c r rem reset hk hd hfind hrem httl
  have hg := cacheGet_eq_none_of_find?_none c r.key r.now1 hfind
  have hstep : (step o c r).1 =
      updateCacheAndProceed c (rem - 1) reset r.key r.now2 := by
    unfold step remotePath
    simp [hk, hd, hg, hrem]
  rw [hstep, updateCacheAndProceed_eq, if_pos httl, cacheSet_head?]
  have h2 : r.now2 + (reset - r.now2) = reset := by omega
  rw [h2]

/-- Witness for C2's general part at a concrete input: remote returns
`remaining = 7`, the cache head stores `remaining = 6`. -/
theorem c2_decrement_before_cache_and_trace_witness :
    (step defaultOptions []
        (Request.mk (.str "w") 10 10 (.ok true 7 50000) .normal)).1.head? =
      some (CacheEntry.mk (.str "w") (RateLimitState.mk 6 50000) 50000) :=
  c2_decrement_before_cache_and_trace.1 defaultOptions []
    (Request.mk (.str "w") 10 10 (.ok true 7 50000) .normal) 7 50000
    rfl rfl rfl rfl (by decide)

/-- C3, as stated, is false: on a successful remote response with
`remaining = 0` — which the sliding-window service can return on the last
admitted request of a window — the engine caches
`remaining - 1 = -1`, a negative `remaining`. Concretely: empty cache,
key "k" at time 0, remote answers `{success: true, remaining: 0,
reset: 60000}`; the resulting cache holds `{remaining: -1, reset: 60000}`,
violating the claimed invariant. -/
theorem c3_negative_remaining_counterexample :
    (step defaultOptions []
        (Request.mk (.str "k") 0 0 (.ok true 0 60000) .normal)).1 =
      [CacheEntry.mk (.str "k") (RateLimitState.mk (-1) 60000) 60000] ∧
    ¬ cacheNonneg (step defaultOptions []
        (Request.mk (.str "k") 0 0 (.ok true 0 60000) .normal)).1 := by
  constructor
  · rfl
  · unfold cacheNonneg
    decide

/-- C3 (amended): every state re-cached after a local hit has
`remaining ≥ 0`, and in any run starting from a cache whose states are all
non-negative, every cache state stays non-negative provided each successful
remote response reports `remaining ≥ 1` (the value cached after a remote
allow is the returned remaining minus one). -/
theorem c3_cache_remaining_nonneg (o : RateLimitOptions) (c : Cache)
    (rs : List Request) (hc : cacheNonneg c)
    (hr : ∀ r ∈ rs, remoteAllowPositive r) :
    cacheNonneg (runSteps o c rs).1 := by
  induction rs generalizing c with
  | nil => exact hc
  | cons r rs ih =>
    unfold runSteps
    exact ih (step o c r).1
      (step_preserves_cacheNonneg o c r hc (hr r (by simp)))
      (fun r2 h2 => hr r2 (by simp [h2]))

/-- Witness for C3 (amended) at a concrete run: one request on the empty
cache whose remote response is `{success: true, remaining: 2}`. -/
theorem c3_cache_remaining_nonneg_witness :
    cacheNonneg (runSteps defaultOptions []
      [Request.mk (.str "k") 0 0 (.ok true 2 60000) .normal]).1 :=
  c3_cache_remaining_nonneg defaultOptions []
    [Request.mk (.str "k") 0 0 (.ok true 2 60000) .normal]
    (by unfold cacheNonneg; simp)
    (by
      intro r h
      simp only [List.mem_singleton] at h
      subst h
      intro rem reset hok
      injection hok with h1 h2 h3
      omega)

/-- C4, as stated, is false: when the remote call reports
`success = false` the source returns the 429 without any cache write, even
with caching enabled and the returned `resetAt` in the future. Concretely:
empty cache, key "k" at time 0, remote answers `{success: false,
remaining: 0, reset: 60000}`; the engine rejects but the cache stays empty,
so no state `{remaining: 0 or returned value, resetAt}` was stored. -/
theorem c4_reject_not_cached_counterexample :
    step defaultOptions []
        (Request.mk (.str "k") 0 0 (.ok false 0 60000) .normal) =
      ([], StepRes.mk (.respond (.tooMany (getErrorMessage defaultOptions)))
        true false) := rfl

/-- C4 (amended): when the remote consume call signals the ceiling was
exceeded (`success = false`), the engine returns Reject (429 with the
configured or default message) and caches nothing: the cache is left
unchanged, whatever the returned `resetAt`. -/
theorem c4_remote_reject_leaves_cache (o : RateLimitOptions) (c : Cache)
    (r : Request) (rem reset : Int) (hk : jsFalsyKey r.key = false)
    (hr : r.remote = RemoteResult.ok false rem reset)
    (hc : c.find? (fun e => e.key = r.key) = none) :
    step o c r =
      (c, StepRes.mk (.respond (.tooMany (getErrorMessage o))) true false) := by
  have hg := cacheGet_eq_none_of_find?_none c r.key r.now1 hc
  unfold step remotePath handleLimitExceeded
  by_cases hd : o.disableLRU <;> simp [hk, hg, hr, hd]

/-- Witness for C4 (amended) at a concrete input. -/
theorem c4_remote_reject_leaves_cache_witness :
    step defaultOptions []
        (Request.mk (.str "a") 5 5 (.ok false 1 99999) .normal) =
      ([], StepRes.mk (.respond (.tooMany (getErrorMessage defaultOptions)))
        true false) :=
  c4_remote_reject_leaves_cache defaultOptions []
    (Request.mk (.str "a") 5 5 (.ok false 1 99999) .normal) 1 99999
    rfl rfl rfl

/-- C5: whenever the engine attempts a cache write through
`updateCacheAndProceed` with `ttl = reset - now ≤ 0`, the write is skipped
and the cache is returned unchanged; a state whose window has already
elapsed is never inserted. (Both engine write sites — the local-hit
re-store and the remote-allow store — go through this function.) -/
theorem c5_nonpositive_ttl_skips_write (c : Cache) (remaining reset : Int)
    (key : KeyVal) (now : Int) (h : reset - now ≤ 0) :
    updateCacheAndProceed c remaining reset key now = c := by
  have h2 : ¬ (reset - now > 0) := by omega
  simp [updateCacheAndProceed, h2]

/-- Witness for C5 at a concrete input: `reset = 1000`, `now = 2000`. -/
theorem c5_nonpositive_ttl_skips_write_witness :
    (1000 : Int) - 2000 ≤ 0 ∧
      updateCacheAndProceed [] 4 1000 (.str "k") 2000 = [] :=
  ⟨by decide,
   c5_nonpositive_ttl_skips_write [] 4 1000 (.str "k") 2000 (by decide)⟩

/-- C6: if the remote consume call throws on a request that reached the
remote step (non-empty key, no cache entry for it), the wrapper responds
500 with `Internal Server Error`, the handler is not invoked, the cache is
left unchanged, and no exception propagates (the outcome is a response,
never `raised`, and never an Allow or Reject). -/
theorem c6_remote_throw_500 (o : RateLimitOptions) (c : Cache) (r : Request)
    (hk : jsFalsyKey r.key = false) (hr : r.remote = RemoteResult.throws)
    (hc : c.find? (fun e => e.key = r.key) = none) :
    step o c r =
      (c, StepRes.mk (.respond (.internalError "Internal Server Error"))
        true false) := by
  have hg := cacheGet_eq_none_of_find?_none c r.key r.now1 hc
  unfold step remotePath
  by_cases hd : o.disableLRU <;> simp [hk, hg, hr, hd]

/-- Witness for C6: first request for an unseen key, remote throws. -/
theorem c6_remote_throw_500_witness :
    step defaultOptions [] (Request.mk (.str "k") 0 0 .throws .normal) =
      ([], StepRes.mk (.respond (.internalError "Internal Server Error"))
        true false) :=
  c6_remote_throw_500 defaultOptions []
    (Request.mk (.str "k") 0 0 .throws .normal) rfl rfl rfl

/-- C7, as stated, is false for the `vercelKV` provider: the wrapper
performs a construction-time credential check only for `upstash`
(lines 30-34); selecting `vercelKV` constructs the client with no
credential check in this code, even when every credential is absent. -/
theorem c7_vercel_no_check_counterexample :
    constructRedisClient Provider.vercelKV (Env.mk none none none none) =
      Except.ok Client.vercelKv := rfl

/-- C7 (amended): only the `upstash` provider is checked at construction:
when `UPSTASH_URL` or `UPSTASH_TOKEN` is absent or empty, construction
fails with `Missing Upstash environment variables` before any request is
handled; the `vercelKV` provider performs no credential check in the
wrapper. -/
theorem c7_upstash_missing_creds_error (env : Env)
    (h : jsFalsyEnv env.upstashUrl = true ∨ jsFalsyEnv env.upstashToken = true) :
    constructRedisClient Provider.upstash env =
      Except.error "Missing Upstash environment variables" := by
  unfold constructRedisClient
  cases hu : env.upstashUrl with
  | none => rfl
  | some u =>
    cases ht : env.upstashToken with
    | none => rfl
    | some t =>
      rw [hu, ht] at h
      simp only [jsFalsyEnv, decide_eq_true_eq] at h
      show (if u = "" ∨ t = "" then
          (Except.error "Missing Upstash environment variables" :
            Except String Client)
        else Except.ok (Client.upstashRedis u t)) =
        Except.error "Missing Upstash environment variables"
      rw [if_pos h]

/-- Witness for C7 (amended): upstash with no URL configured. -/
theorem c7_upstash_missing_creds_error_witness :
    constructRedisClient Provider.upstash (Env.mk none (some "t") none none) =
      Except.error "Missing Upstash environment variables" :=
  c7_upstash_missing_creds_error (Env.mk none (some "t") none none)
    (Or.inl rfl)

/-- C8: the claim is right and the code is wrong. The source reads
`const key = getKey(req)` without `await` although the README documents
asynchronous extractors (the NextAuth example returns `Promise<string>`,
with the empty string meaning "cannot rate-limit"). A pending promise is a
truthy value, so the `!key` guard does not fire: at the failing input — an
async extractor resolving to the empty string — the wrapper does not
respond 400; it proceeds to the remote call and invokes the handler. -/
theorem c8_promise_key_bypasses_400 :
    (step defaultOptions []
        (Request.mk (.promise "") 0 0 (.ok true 5 60000) .normal)).2 =
      StepRes.mk (.respond .handlerResponse) true true := rfl

/-- C9: with `disableLRU = true`, every request with a non-empty key makes
the remote consume call (always exactly the one call the step performs),
leaves the cache unchanged, and its observable result does not depend on
the cache contents at all — the cache is neither read nor written. -/
theorem c9_disable_lru_always_remote (o : RateLimitOptions) (c c2 : Cache)
    (r : Request) (hd : o.disableLRU = true) (hk : jsFalsyKey r.key = false) :
    (step o c r).1 = c ∧ (step o c r).2.remoteCalled = true ∧
      (step o c r).2 = (step o c2 r).2 := by
  unfold step remotePath
  cases hrem : r.remote with
  | throws => simp [hk, hd]
  | ok success rem reset => cases success <;> simp [hk, hd]

/-- Witness for C9 at a concrete input, against a non-trivial cache. -/
theorem c9_disable_lru_always_remote_witness :
    (step (RateLimitOptions.mk 60 5 true .upstash none) []
        (Request.mk (.str "k") 0 0 (.ok true 5 60000) .normal)).1 = [] ∧
    (step (RateLimitOptions.mk 60 5 true .upstash none) []
        (Request.mk (.str "k") 0 0 (.ok true 5 60000) .normal)).2.remoteCalled
      = true ∧
    (step (RateLimitOptions.mk 60 5 true .upstash none) []
        (Request.mk (.str "k") 0 0 (.ok true 5 60000) .normal)).2 =
    (step (RateLimitOptions.mk 60 5 true .upstash none)
        [CacheEntry.mk (.str "k") (RateLimitState.mk 0 60000) 60000]
        (Request.mk (.str "k") 0 0 (.ok true 5 60000) .normal)).2 :=
  c9_disable_lru_always_remote (RateLimitOptions.mk 60 5 true .upstash none)
    [] [CacheEntry.mk (.str "k") (RateLimitState.mk 0 60000) 60000]
    (Request.mk (.str "k") 0 0 (.ok true 5 60000) .normal) rfl rfl

/-- C10, as stated, is false for asynchronous handlers on the remote-allow
path: the source returns the handler's promise from inside the `try`
without `await`, so a rejecting promise is not caught — the rejection
propagates to the wrapper's caller instead of becoming the 500 response.
Concretely: empty cache, remote allows, handler returns a rejecting
promise; the outcome is `raised`, not
`respond (internalError "Internal Server Error")`. -/
theorem c10_async_rejection_not_caught :
    (step defaultOptions []
        (Request.mk (.str "k") 0 0 (.ok true 5 60000) .rejectsAsync)).2 =
      StepRes.mk Outcome.raised true true := rfl

/-- C10 (amended): on the local-hit allow path the handler runs outside
the `try/catch`, so every handler failure propagates; on the remote-allow
path the handler runs inside the `try` but its promise is returned without
`await`, so only a synchronous throw is converted into the 500 response,
while an async rejection propagates on this path too. -/
theorem c10_handler_exception_paths (o : RateLimitOptions) (c : Cache)
    (r : Request) (hk : jsFalsyKey r.key = false) :
    (∀ st c1, o.disableLRU = false →
      cacheGet c r.key r.now1 = (some st, c1) →
      st.reset > r.now1 → st.remaining > 0 →
      (step o c r).2.outcome = handlerOutcomeOutsideTry r.handler) ∧
    (∀ rem reset, c.find? (fun e => e.key = r.key) = none →
      r.remote = RemoteResult.ok true rem reset →
      (step o c r).2.outcome = handlerOutcomeInsideTry r.handler) ∧
    handlerOutcomeOutsideTry .throwsSync = .raised ∧
    handlerOutcomeOutsideTry .rejectsAsync = .raised ∧
    handlerOutcomeInsideTry .throwsSync =
      .respond (.internalError "Internal Server Error") ∧
    handlerOutcomeInsideTry .rejectsAsync = .raised := by
  refine ⟨?_, ?_, rfl, rfl, rfl, rfl⟩
  · intro st c1 hd hg hreset hrem
    unfold step
    simp [hk, hd, hg, hreset, hrem]
  · intro rem reset hfind hrem
    have hg := cacheGet_eq_none_of_find?_none c r.key r.now1 hfind
    unfold step remotePath
    by_cases hd : o.disableLRU <;> simp [hk, hg, hrem, hd]

/-- Witness for C10 (amended): remote-allow path, synchronously throwing
handler, derived from the theorem's second component. -/
theorem c10_handler_exception_paths_witness :
    (step defaultOptions []
        (Request.mk (.str "k") 0 0 (.ok true 5 60000) .throwsSync)).2.outcome
      = handlerOutcomeInsideTry .throwsSync :=
  (c10_handler_exception_paths defaultOptions []
    (Request.mk (.str "k") 0 0 (.ok true 5 60000) .throwsSync) rfl).2.1
    5 60000 rfl rfl

end RateLimit
